import Mathlib

/-!
Shallow embedding of the crypto-payments transaction pipeline
(services/transactionHelpers.js, services/transactionProcessor.js,
db/depositRepository.js, consumers/transactionConsumer.js,
utils/waitForQueueEmpty.js, utils/encryption.js, config/index.js),
together with theorems checking the design documents statements about
classification, deduplication, persistence idempotence, retry routing,
drain synchronization and error scoping.

JavaScript numbers are modelled as rationals, JavaScript strings as
Lean strings, a JavaScript Set of txids as a list queried through
membership, and thrown exceptions as Except / Option results.  A thrown
plain Error that handleError (utils/errorHandler.js) re-raises is an
error result; an exception that handleError merely logs (for example
FileProcessingError) is absorbed exactly where the source absorbs it.
-/

namespace CryptoPayments

/-- A JavaScript field value as far as the structural validator looks at
it: a string, a number, or anything else (object, boolean, ...). -/
inductive JVal
  | jstr (s : String)
  | jnum (q : Rat)
  | jother
  deriving DecidableEq

/-- Raw transaction record as read from input JSON: every field may be
absent (none) or hold a value of any runtime type. -/
structure RawTx where
  txid : Option JVal
  address : Option JVal
  amount : Option JVal
  confirmations : Option JVal
  category : Option JVal
  deriving DecidableEq

/-- typeof v === "string" on a possibly absent field. -/
def typeofIsString : Option JVal → Bool
  | some (JVal.jstr _) => true
  | _ => false

/-- typeof v === "number" on a possibly absent field. -/
def typeofIsNumber : Option JVal → Bool
  | some (JVal.jnum _) => true
  | _ => false

/-- validateTransaction (services/transactionHelpers.js lines 9-19):
returns true when the record passes (the source throws otherwise).  The
source checks txid, address and category as strings and amount and
confirmations as numbers. -/
def validateTransaction (tx : RawTx) : Bool :=
  typeofIsString tx.txid && typeofIsString tx.address &&
    typeofIsNumber tx.amount && typeofIsNumber tx.confirmations &&
    typeofIsString tx.category

/-- The validation predicate as worded by the design document section
4.2: only txid, address (strings), amount, confirmations (numbers) are
checked.  Kept separate from validateTransaction so the two can be
compared. -/
def validateTransactionSpec (tx : RawTx) : Bool :=
  typeofIsString tx.txid && typeofIsString tx.address &&
    typeofIsNumber tx.amount && typeofIsNumber tx.confirmations

/-- A structurally valid transaction record, as seen after
validateTransaction has passed. -/
structure Tx where
  txid : String
  address : String
  amount : Rat
  confirmations : Rat
  category : String
  deriving DecidableEq

/-- Conversion of a raw record into a typed one; succeeds exactly when
validateTransaction passes. -/
def toTx (tx : RawTx) : Option Tx :=
  match tx.txid, tx.address, tx.amount, tx.confirmations, tx.category with
  | some (JVal.jstr i), some (JVal.jstr a), some (JVal.jnum m),
      some (JVal.jnum c), some (JVal.jstr k) => some ⟨i, a, m, c, k⟩
  | _, _, _, _, _ => none

/-- MIN_CONFIRMATIONS (config/index.js line 22). -/
def MIN_CONFIRMATIONS : Rat := 6

/-- isValidDeposit (services/transactionHelpers.js lines 26-32). -/
def isValidDeposit (tx : Tx) : Bool :=
  tx.category == "receive" && decide (0 < tx.amount) &&
    decide (MIN_CONFIRMATIONS ≤ tx.confirmations)

/-- getFailureReason (services/transactionHelpers.js lines 39-45):
first failing check wins; none means the record is a valid deposit. -/
def getFailureReason (tx : Tx) : Option String :=
  if tx.category ≠ "receive" then some "Categoría inválida"
  else if tx.amount ≤ 0 then some "Monto negativo o cero"
  else if tx.confirmations < MIN_CONFIRMATIONS then
    some "Confirmaciones insuficientes"
  else none

/-- Row of the deposits table (migrations; db/depositRepository.js). -/
structure DepositRow where
  txid : String
  address : String
  amount : Rat
  confirmations : Rat
  executionId : String
  deriving DecidableEq

/-- Row of the failed_transactions table.  Nullable columns are Option. -/
structure FailedRow where
  executionId : String
  txid : Option String
  address : Option String
  amount : Option Rat
  confirmations : Option Rat
  reason : String
  deriving DecidableEq

/-- JavaScript s || null for a string field: the empty string is falsy
and becomes null. -/
def strOrNull (s : String) : Option String :=
  if s = "" then none else some s

/-- JavaScript q || null for a number field: 0 is falsy and becomes
null. -/
def numOrNull (q : Rat) : Option Rat :=
  if q = 0 then none else some q

/-- formatValidDeposit (transactionHelpers variant, part_003 lines
165-173). -/
def formatValidDeposit (tx : Tx) (executionId : String) : DepositRow :=
  ⟨tx.txid, tx.address, tx.amount, tx.confirmations, executionId⟩

/-- formatFailedTransaction (transactionHelpers variant, part_003 lines
139-148): every field goes through || null. -/
def formatFailedTransaction (tx : Tx) (executionId reason : String) :
    FailedRow :=
  ⟨executionId, strOrNull tx.txid, strOrNull tx.address,
    numOrNull tx.amount, numOrNull tx.confirmations, reason⟩

/-- Classification outcome of one record. -/
inductive Outcome
  | valid
  | failed (reason : String)
  deriving DecidableEq

/-- One loop iteration of classifyTransactions (transactionHelpers
variant, part_003 lines 79-112) on an already validated record: the
run-scoped seen-set is consulted first; a fresh txid is added to it
exactly when the record classifies as a valid deposit. -/
def classifyStep (tx : Tx) (seen : List String) : Outcome × List String :=
  if tx.txid ∈ seen then (Outcome.failed "Transacción duplicada", seen)
  else
    match getFailureReason tx with
    | none => (Outcome.valid, seen ++ [tx.txid])
    | some r => (Outcome.failed r, seen)

/-- Per-record outcomes of classifyTransactions over a list, threading
the seen-set left to right. -/
def classifyOutcomes : List Tx → List String → List Outcome
  | [], _ => []
  | tx :: rest, seen =>
    (classifyStep tx seen).1 :: classifyOutcomes rest (classifyStep tx seen).2

/-- classifyTransactions (transactionHelpers variant, part_003 lines
74-115) including the structural validation of each record.  A record
that fails validateTransaction raises a plain Error which handleError
re-raises, aborting the whole call, hence the Except.  On success it
returns the valid-deposit rows, the failed rows and the final seen-set,
in arrival order. -/
def classifyTransactions (executionId : String) :
    List RawTx → List String →
      Except Unit (List DepositRow × List FailedRow × List String)
  | [], seen => Except.ok ([], [], seen)
  | raw :: rest, seen =>
    match toTx raw with
    | none => Except.error ()
    | some tx =>
      match classifyStep tx seen with
      | (Outcome.valid, seen2) =>
        match classifyTransactions executionId rest seen2 with
        | Except.error e => Except.error e
        | Except.ok (vs, fs, seenF) =>
          Except.ok (formatValidDeposit tx executionId :: vs, fs, seenF)
      | (Outcome.failed reason, seen2) =>
        match classifyTransactions executionId rest seen2 with
        | Except.error e => Except.error e
        | Except.ok (vs, fs, seenF) =>
          Except.ok (vs, formatFailedTransaction tx executionId reason :: fs,
            seenF)

/-! ## Batch persistence (db/depositRepository.js and the encrypting
variant of the same module) -/

/-- Splitting a list into consecutive chunks of size n, as the
for-loops with slice(i, i + batchSize) do.  The fuel argument is the
number of remaining slices; callers pass the list length, which always
suffices. -/
def chunksOfFuel (n : Nat) : Nat → List α → List (List α)
  | 0, _ => []
  | _ + 1, [] => []
  | fuel + 1, x :: xs =>
    if n = 0 then [x :: xs]
    else (x :: xs).take n :: chunksOfFuel n fuel ((x :: xs).drop n)

/-- The chunks of size n of a list. -/
def chunksOf (n : Nat) (l : List α) : List (List α) :=
  chunksOfFuel n l.length l

/-- Effect on the deposits table of one multi-row
INSERT ... ON CONFLICT (txid) DO NOTHING: rows whose txid column value
already appears (in the table or earlier in the same statement) are
silently skipped; the others are appended. -/
def insertDepositsIgnoreConflict (table rows : List DepositRow) :
    List DepositRow :=
  rows.foldl
    (fun acc r =>
      if (acc.map DepositRow.txid).contains r.txid then acc else acc ++ [r])
    table

/-- saveValidDepositsInBatch (db/depositRepository.js lines 79-103):
the deposit list is cut into chunks of batchSize (500 at every call
site) and each chunk is bulk-inserted with conflict-ignoring semantics
on txid.  The txid column receives the plaintext txid. -/
def saveValidDepositsInBatch (table deposits : List DepositRow)
    (batchSize : Nat) : List DepositRow :=
  (chunksOf batchSize deposits).foldl insertDepositsIgnoreConflict table

/-- Hex rendering of an initialization vector, the prefix that
utils/encryption.js puts before the colon of every ciphertext. -/
def ivHex (iv : Nat) : String :=
  String.mk (Nat.toDigits 16 iv)

/-- Modelled from the spec: the AES-256-CBC cipher core behind
utils/encryption.js comes from the external crypto module, which the
design document section 6 treats as a black box subject only to
reveal(obscure(x)) = x.  The body is therefore modelled as the
plaintext itself; every statement proved below depends only on the IV
prefix that the repository code itself prepends, not on this body. -/
def cipherBody (_iv : Nat) (text : String) : String := text

/-- encrypt (utils/encryption.js lines 12-18): a FRESH random IV is
drawn on every call and the result is ivHex ++ ":" ++ body.  The IV
draw is made explicit as the iv argument. -/
def encrypt (iv : Nat) (text : String) : String :=
  ivHex iv ++ ":" ++ cipherBody iv text

/-- Character-level split at the first colon, the separator
utils/encryption.js puts between the IV and the cipher body. -/
def splitAtColon : List Char → List Char × List Char
  | [] => ([], [])
  | c :: cs =>
    if c = ':' then ([], cs)
    else ((c :: (splitAtColon cs).1), (splitAtColon cs).2)

/-- decrypt (utils/encryption.js lines 26-34): split the stored string
at the colons and decipher the part between the first and the second
one. -/
def decrypt (s : String) : String :=
  String.mk (splitAtColon (splitAtColon s.data).2).1

/-- One deposit row as the encrypting saveValidDepositsInBatch
(part_009 lines 91-127) prepares it: txid and address are each
encrypted with the next two IVs of the random stream sigma, the numeric
columns are passed through. -/
def encryptDepositRow (sigma : Nat → Nat) (k : Nat) (d : DepositRow) :
    DepositRow :=
  { d with txid := encrypt (sigma k) d.txid,
           address := encrypt (sigma (k + 1)) d.address }

/-- saveValidDepositsInBatch of the encrypting repository variant
(part_009 lines 91-127): same chunked conflict-ignoring insert, but the
txid and address column values are fresh ciphertexts.  sigma is the
stream of random IVs and k0 the position in the stream at which this
call starts drawing. -/
def saveValidDepositsInBatchEnc (sigma : Nat → Nat) (k0 : Nat)
    (table deposits : List DepositRow) (batchSize : Nat) : List DepositRow :=
  (chunksOf batchSize
      (deposits.enum.map (fun p => encryptDepositRow sigma (k0 + 2 * p.1) p.2))
    ).foldl insertDepositsIgnoreConflict table

/-! ## Database connection state and the two persistTransactions
variants -/

/-- The two tables the pipeline writes. -/
structure StoreTables where
  deposits : List DepositRow
  failedTxs : List FailedRow
  deriving DecidableEq

/-- A connection: committed state plus the working state of an open
transaction, if any.  With no open transaction every statement
autocommits. -/
structure DBConn where
  committed : StoreTables
  txnBuf : Option StoreTables
  deriving DecidableEq

/-- Run a statement: inside an open transaction it updates the
transaction buffer, otherwise it autocommits. -/
def dbApply (db : DBConn) (f : StoreTables → StoreTables) : DBConn :=
  match db.txnBuf with
  | some t => { db with txnBuf := some (f t) }
  | none => { db with committed := f db.committed }

/-- BEGIN. -/
def dbBegin (db : DBConn) : DBConn :=
  { db with txnBuf := some db.committed }

/-- COMMIT. -/
def dbCommit (db : DBConn) : DBConn :=
  { committed := db.txnBuf.getD db.committed, txnBuf := none }

/-- ROLLBACK. -/
def dbRollback (db : DBConn) : DBConn :=
  { db with txnBuf := none }

/-- Table effect of the valid-deposit bulk insert (plaintext variant,
chunk size 500). -/
def applyValidInsert (vd : List DepositRow) (t : StoreTables) : StoreTables :=
  { t with deposits := saveValidDepositsInBatch t.deposits vd 500 }

/-- Table effect of saveFailedTransactionsInBatch
(db/depositRepository.js lines 108-135): a plain chunked INSERT with no
conflict guard; chunking does not change the appended rows. -/
def applyFailedInsert (fd : List FailedRow) (t : StoreTables) : StoreTables :=
  { t with failedTxs := t.failedTxs ++ fd }

/-- persistTransactions (services/transactionProcessor.js lines
128-138): BEGIN, both bulk inserts, COMMIT; any raise triggers
ROLLBACK.  The two Booleans inject whether each bulk insert raises (a
raising statement applies no rows); the raised error is afterwards
handled outside the stored state. -/
def persistTransactionsProcessor (db : DBConn) (vd : List DepositRow)
    (fd : List FailedRow) (validInsertRaises failedInsertRaises : Bool) :
    DBConn :=
  let db1 := dbBegin db
  if validInsertRaises then dbRollback db1
  else
    let db2 := dbApply db1 (applyValidInsert vd)
    if failedInsertRaises then dbRollback db2
    else dbCommit (dbApply db2 (applyFailedInsert fd))

/-- persistTransactions of the transactionHelpers variant (part_003
lines 123-130), the one the broker consumer imports: the same two bulk
inserts but with no BEGIN/COMMIT/ROLLBACK around them, so each insert
autocommits on its own. -/
def persistTransactionsHelpers (db : DBConn) (vd : List DepositRow)
    (fd : List FailedRow) (validInsertRaises failedInsertRaises : Bool) :
    DBConn :=
  if validInsertRaises then db
  else
    let db1 := dbApply db (applyValidInsert vd)
    if failedInsertRaises then db1
    else dbApply db1 (applyFailedInsert fd)

/-! ## File reading, the broker publisher and the sequential pipeline
(services/transactionProcessor.js) -/

/-- Parsed top-level shape of a source file: either it carries a
transactions list or it does not. -/
inductive FileShape
  | goodFile (txs : List RawTx)
  | badShape
  deriving DecidableEq

/-- What reading one file yields: parsed JSON, or a raised plain Error
(missing file from fs.readFile, malformed JSON from JSON.parse). -/
inductive ReadOutcome
  | okRead (d : FileShape)
  | ioFault
  deriving DecidableEq

/-- The two error species this layer distinguishes, because handleError
(utils/errorHandler.js) re-raises plain errors but only logs
FileProcessingError. -/
inductive JsErrKind
  | plainError
  | fileProcessingError
  deriving DecidableEq

/-- readAndValidateFile (services/transactionProcessor.js lines
106-110): readJsonFile raises plain errors, validateFileData raises
FileProcessingError on a shape without a transactions list. -/
def readAndValidateFile (fsys : String → ReadOutcome) (file : String) :
    Except JsErrKind (List RawTx) :=
  match fsys file with
  | ReadOutcome.ioFault => Except.error JsErrKind.plainError
  | ReadOutcome.okRead FileShape.badShape =>
    Except.error JsErrKind.fileProcessingError
  | ReadOutcome.okRead (FileShape.goodFile txs) => Except.ok txs

/-- A message published to the main exchange: a work envelope or the
control sentinel. -/
inductive WireMessage
  | workMsg (tx : RawTx) (executionId : String)
  | controlMsg (executionId : String)
  deriving DecidableEq

/-- The publishing loop of processTransactions
(services/transactionProcessor.js lines 19-76).  The whole loop over
files sits in one try block whose catch calls handleError, so the first
file error ends publication: a FileProcessingError is logged and the
function returns normally with the messages published so far and no
sentinel; a plain error is re-raised.  Only when every file succeeds is
the control sentinel published after the work messages. -/
def publishFilesGo (fsys : String → ReadOutcome) (executionId : String) :
    List String → List WireMessage → Except Unit (List WireMessage)
  | [], acc => Except.ok (acc ++ [WireMessage.controlMsg executionId])
  | f :: rest, acc =>
    match readAndValidateFile fsys f with
    | Except.error JsErrKind.fileProcessingError => Except.ok acc
    | Except.error JsErrKind.plainError => Except.error ()
    | Except.ok txs =>
      publishFilesGo fsys executionId rest
        (acc ++ txs.map (fun t => WireMessage.workMsg t executionId))

/-- processTransactions, broker-publisher variant
(services/transactionProcessor.js lines 19-76): publish every record of
every file, then one control sentinel. -/
def processTransactionsPublisher (fsys : String → ReadOutcome)
    (files : List String) (executionId : String) :
    Except Unit (List WireMessage) :=
  publishFilesGo fsys executionId files []

/-- Run-scoped state of the sequential pipeline: the seen-set and the
database connection. -/
structure PipelineState where
  seen : List String
  db : DBConn
  deriving DecidableEq

/-- The txids of a raw batch, as extractTxids maps them; fields that
are not strings contribute nothing a later string comparison could
match. -/
def extractTxids (txs : List RawTx) : List String :=
  txs.filterMap (fun r =>
    match r.txid with
    | some (JVal.jstr s) => some s
    | _ => none)

/-- getExistingTxids (db/depositRepository.js lines 137-145): the
subset of the given txids already present in the deposits table. -/
def getExistingTxids (deposits : List DepositRow) (txids : List String) :
    List String :=
  (deposits.filter (fun r => txids.contains r.txid)).map DepositRow.txid

/-- updateSeenTxidsFromDB (services/transactionProcessor.js lines
118-121): add every txid the storage lookup returned to the run-scoped
seen-set. -/
def updateSeenTxidsFromDB (deposits : List DepositRow)
    (fileTxids seen : List String) : List String :=
  (getExistingTxids deposits fileTxids).foldl
    (fun s x => if s.contains x then s else s ++ [x]) seen

/-- processFile (services/transactionProcessor.js lines 236-250): read
and shape-check the file, reconcile the seen-set with storage, classify
and persist.  Its catch hands every raise to handleError, which logs a
FileProcessingError (the file is skipped and the run continues) but
re-raises anything else. -/
def processFilePipeline (fsys : String → ReadOutcome) (executionId : String)
    (file : String) (st : PipelineState) : Except Unit PipelineState :=
  match readAndValidateFile fsys file with
  | Except.error JsErrKind.fileProcessingError => Except.ok st
  | Except.error JsErrKind.plainError => Except.error ()
  | Except.ok txs =>
    let seen1 := updateSeenTxidsFromDB
      (st.db.txnBuf.getD st.db.committed).deposits (extractTxids txs) st.seen
    match classifyTransactions executionId txs seen1 with
    | Except.error e => Except.error e
    | Except.ok (vd, fd, seen2) =>
      Except.ok ⟨seen2, persistTransactionsProcessor st.db vd fd false false⟩

/-- The file loop of the sequential processTransactions
(services/transactionProcessor.js lines 216-227): files are processed
in order; an error a processFile call re-raised aborts the rest. -/
def processFilesPipeline (fsys : String → ReadOutcome)
    (executionId : String) : List String → PipelineState →
      Except Unit PipelineState
  | [], st => Except.ok st
  | f :: rest, st =>
    match processFilePipeline fsys executionId f st with
    | Except.ok st2 => processFilesPipeline fsys executionId rest st2
    | Except.error e => Except.error e

/-! ## Consumer failure routing (consumers/transactionConsumer.js) -/

/-- Where a failed delivery is republished. -/
inductive RetryRoute
  | retryPublish (count : Nat)
  | deadLetter
  deriving DecidableEq

/-- The catch block of the consumer
(consumers/transactionConsumer.js lines 302-328, likewise flushBatch
lines 148-165): read x-retry-count (0 when absent); below 3 republish
to the retry exchange with the counter incremented, otherwise to the
dead-letter exchange; the Boolean records that the original message is
acknowledged on both branches. -/
def handleProcessingError (retryCount : Nat) : RetryRoute × Bool :=
  if retryCount < 3 then (RetryRoute.retryPublish (retryCount + 1), true)
  else (RetryRoute.deadLetter, true)

/-- x-retry-count header carried into the n-th failure (0-based) of a
message whose processing always raises: the first delivery has no
header, each retry republication sets the incremented counter.  After a
dead-letter republication there is no further delivery, so the value is
frozen there and never consulted. -/
def retryHeaderAtFailure : Nat → Nat
  | 0 => 0
  | n + 1 =>
    match (handleProcessingError (retryHeaderAtFailure n)).1 with
    | RetryRoute.retryPublish c => c
    | RetryRoute.deadLetter => retryHeaderAtFailure n

/-- Route taken on the n-th failure of an always-failing message. -/
def routeAtFailure (n : Nat) : RetryRoute :=
  (handleProcessingError (retryHeaderAtFailure n)).1

/-! ## Drain synchronization (utils/waitForQueueEmpty.js) -/

/-- How the wait ended: a poll saw every queue empty, or the elapsed
time passed the bound and the function warned and returned. -/
inductive WaitResult
  | drained (poll : Nat)
  | timedOut (poll : Nat)
  deriving DecidableEq

/-- All polled queues report zero pending messages. -/
def allQueuesEmpty (depths : List Nat) : Bool :=
  depths.all (fun d => d = 0)

/-- The while-true loop of waitForQueuesEmpty
(utils/waitForQueueEmpty.js lines 8-33).  depths k gives the message
counts the k-th poll observes; elapsed time at poll k is k * intervalMs
because the loop sleeps intervalMs between polls.  fuel bounds the
recursion; the wrapper below passes enough for the time bound to fire
first, so the none case is unreachable there. -/
def waitGo (depths : Nat → List Nat) (intervalMs maxWaitMs : Nat) :
    Nat → Nat → Option WaitResult
  | 0, k =>
    if allQueuesEmpty (depths k) then some (WaitResult.drained k)
    else if maxWaitMs < k * intervalMs then some (WaitResult.timedOut k)
    else none
  | fuel + 1, k =>
    if allQueuesEmpty (depths k) then some (WaitResult.drained k)
    else if maxWaitMs < k * intervalMs then some (WaitResult.timedOut k)
    else waitGo depths intervalMs maxWaitMs fuel (k + 1)

/-- waitForQueuesEmpty (utils/waitForQueueEmpty.js lines 8-33). -/
def waitForQueuesEmpty (depths : Nat → List Nat)
    (intervalMs maxWaitMs : Nat) : Option WaitResult :=
  waitGo depths intervalMs maxWaitMs (maxWaitMs / intervalMs + 1) 0

/-- The wait the consumer performs on the control sentinel
(consumers/transactionConsumer.js line 271): both the main queue and
the retry queue, polled every second, bounded by ten seconds. -/
def consumerControlDrain (mainDepth retryDepth : Nat → Nat) :
    Option WaitResult :=
  waitForQueuesEmpty (fun k => [mainDepth k, retryDepth k]) 1000 10000

/-! ## Acknowledgement order in the two consumer variants
(consumers/transactionConsumer.js).  The traces record, per delivered
work message (identified by its position), when its record goes through
classification, when a batch is persisted and when the message is
acknowledged. -/

inductive ConsumerEvent
  | classifiedMsg (i : Nat)
  | persistedBatch
  | ackedMsg (i : Nat)
  deriving DecidableEq

/-- First consumer variant (consumers/transactionConsumer.js lines
45-77): a work message is pushed onto the in-memory batch and
acknowledged at once; processBatch (classification and persistence)
runs only when the batch reaches BATCH_SIZE = 50, and the leftovers are
processed when the control sentinel arrives. -/
def consumerV1Go : List Nat → List Nat → List ConsumerEvent
  | [], buf =>
    if buf.isEmpty then []
    else buf.map ConsumerEvent.classifiedMsg ++ [ConsumerEvent.persistedBatch]
  | i :: rest, buf =>
    let buf2 := buf ++ [i]
    if 50 ≤ buf2.length then
      (buf2.map ConsumerEvent.classifiedMsg ++ [ConsumerEvent.persistedBatch])
        ++ ConsumerEvent.ackedMsg i :: consumerV1Go rest []
    else
      ConsumerEvent.ackedMsg i :: consumerV1Go rest buf2

/-- flushBatch (consumers/transactionConsumer.js lines 125-173), success
path: nothing happens on an empty batch; otherwise the accumulated rows
are persisted and then every buffered message is acknowledged. -/
def flushBatchEvents (buf : List Nat) : List ConsumerEvent :=
  if buf.isEmpty then []
  else ConsumerEvent.persistedBatch :: buf.map ConsumerEvent.ackedMsg

/-- Second consumer variant (consumers/transactionConsumer.js lines
255-329), success path: each work message is classified immediately and
buffered; acknowledgements happen only inside flushBatch, after the
batch is persisted, when the threshold of 50 accumulated rows is
reached or when the control sentinel triggers the final flush. -/
def consumerV2Go : List Nat → List Nat → List ConsumerEvent
  | [], buf => flushBatchEvents buf
  | i :: rest, buf =>
    if 50 ≤ (buf ++ [i]).length then
      ConsumerEvent.classifiedMsg i ::
        (flushBatchEvents (buf ++ [i]) ++ consumerV2Go rest [])
    else
      ConsumerEvent.classifiedMsg i :: consumerV2Go rest (buf ++ [i])

/-- Indices of messages acknowledged within a trace. -/
def ackedIn (tr : List ConsumerEvent) : List Nat :=
  tr.filterMap (fun e =>
    match e with
    | ConsumerEvent.ackedMsg i => some i
    | _ => none)

/-- Indices of messages classified within a trace. -/
def classifiedIn (tr : List ConsumerEvent) : List Nat :=
  tr.filterMap (fun e =>
    match e with
    | ConsumerEvent.classifiedMsg i => some i
    | _ => none)

/-! ## Concrete fixtures used by the closed theorems below -/

/-- A fully valid deposit record. -/
def txReceive : Tx := ⟨"t1", "addrA", 50, 6, "receive"⟩

/-- A second record carrying the same txid as txReceive and itself
satisfying every business rule. -/
def txReceiveAgain : Tx := ⟨"t1", "addrB", 7, 9, "receive"⟩

/-- A record whose category is not receive and which also fails the
amount and confirmations rules. -/
def txSend : Tx := ⟨"t2", "addrC", 0, 1, "send"⟩

/-- A raw record whose four data fields are well typed but whose
category field is absent. -/
def rawNoCategory : RawTx :=
  ⟨some (JVal.jstr "t3"), some (JVal.jstr "addrD"), some (JVal.jnum 1),
    some (JVal.jnum 6), none⟩

/-- A raw record that is fully well typed and business-valid. -/
def rawGood : RawTx :=
  ⟨some (JVal.jstr "t9"), some (JVal.jstr "addrE"), some (JVal.jnum 50),
    some (JVal.jnum 6), some (JVal.jstr "receive")⟩

/-- A deposit row to be persisted. -/
def depRow : DepositRow := ⟨"t1", "addrA", 50, 6, "run-1"⟩

/-- A failed-transaction row to be persisted. -/
def failRow : FailedRow :=
  ⟨"run-1", some "t2", some "addrC", some 5, some 1,
    "Confirmaciones insuficientes"⟩

/-- An empty connection with no open transaction. -/
def dbEmpty : DBConn := ⟨⟨[], []⟩, none⟩

/-- A concrete IV stream: the n-th random draw is n. -/
def ivSeq : Nat → Nat := fun k => k

/-- The deposits table after the plaintext bulk writer inserts the same
deposit twice (two calls, batch size 500 as at every call site). -/
def depositsAfterPlainTwice : List DepositRow :=
  saveValidDepositsInBatch (saveValidDepositsInBatch [] [depRow] 500)
    [depRow] 500

/-- The deposits table after the encrypting bulk writer inserts the
same deposit twice; the second call starts at position 2 of the IV
stream because the first call consumed two draws. -/
def depositsAfterEncTwice : List DepositRow :=
  saveValidDepositsInBatchEnc ivSeq 2
    (saveValidDepositsInBatchEnc ivSeq 0 [] [depRow] 500) [depRow] 500

/-- A file system in which the first source file has a bad top-level
shape and the second is fine. -/
def fsysBadThenGood : String → ReadOutcome := fun name =>
  if name = "transactions-1.json" then ReadOutcome.okRead FileShape.badShape
  else if name = "transactions-2.json" then
    ReadOutcome.okRead (FileShape.goodFile [rawGood])
  else ReadOutcome.ioFault

/-- Initial pipeline state of a run. -/
def pipelineStart : PipelineState := ⟨[], dbEmpty⟩

/-- Queue depths for the drain witness: the main queue still holds
three messages at the first two polls, then drains. -/
def mainDepthSample : Nat → Nat := fun k => if k < 2 then 3 else 0

/-- Retry queue depths for the drain witness: always empty. -/
def retryDepthSample : Nat → Nat := fun _ => 0

/-! ## Theorems -/

/-- C3 counterexample: a record whose category is not receive is
reported with the Spanish reason string of the code, which is not the
label the design document quotes; at this input the reported reason is
not the string "invalid category". -/
theorem c3_reason_string_counterexample :
    getFailureReason txSend = some "Categoría inválida" ∧
      "Categoría inválida" ≠ "invalid category" := by
  constructor
  · decide
  · decide

/-- C3: for every structurally valid record, classification is valid
exactly when category is receive, the amount is positive and the
confirmations reach MIN_CONFIRMATIONS; otherwise exactly one reason is
reported, chosen by the priority category, then amount, then
confirmations, with the Spanish reason strings of the code. -/
theorem getFailureReason_priority (tx : Tx) :
    (getFailureReason tx = none ↔ isValidDeposit tx = true) ∧
    (tx.category ≠ "receive" →
      getFailureReason tx = some "Categoría inválida") ∧
    (tx.category = "receive" → tx.amount ≤ 0 →
      getFailureReason tx = some "Monto negativo o cero") ∧
    (tx.category = "receive" → 0 < tx.amount →
      tx.confirmations < MIN_CONFIRMATIONS →
      getFailureReason tx = some "Confirmaciones insuficientes") := by
  refine ⟨?_, ?_, ?_, ?_⟩
  · simp only [getFailureReason]
    split_ifs with h1 h2 h3
    · simp [isValidDeposit, h1]
    · have h : ¬ (0 : Rat) < tx.amount := not_lt.mpr h2
      simp [isValidDeposit, h]
    · have h : ¬ MIN_CONFIRMATIONS ≤ tx.confirmations := not_le.mpr h3
      simp [isValidDeposit, h]
    · push_neg at h1 h2 h3
      simp [isValidDeposit, h1, h2, h3]
  · intro h
    simp [getFailureReason, h]
  · intro hcat hamt
    simp [getFailureReason, hcat, hamt]
  · intro hcat hamt hconf
    have h : ¬ tx.amount ≤ 0 := not_le.mpr hamt
    simp [getFailureReason, hcat, h, hconf]

/-- Witness for getFailureReason_priority at concrete records, one per
priority branch. -/
theorem getFailureReason_priority_witness :
    getFailureReason txSend = some "Categoría inválida" ∧
      getFailureReason ⟨"t4", "a", 0, 9, "receive"⟩ =
        some "Monto negativo o cero" ∧
      getFailureReason ⟨"t5", "a", 5, 1, "receive"⟩ =
        some "Confirmaciones insuficientes" :=
  ⟨(getFailureReason_priority txSend).2.1 (by decide),
    (getFailureReason_priority ⟨"t4", "a", 0, 9, "receive"⟩).2.2.1
      (by decide) (by decide),
    (getFailureReason_priority ⟨"t5", "a", 5, 1, "receive"⟩).2.2.2
      (by decide) (by decide) (by decide)⟩

/-- C8 counterexample: a record whose txid, address, amount and
confirmations are well typed but whose category is absent passes the
validation the design document describes, yet validateTransaction
rejects it. -/
theorem validateTransaction_category_counterexample :
    validateTransactionSpec rawNoCategory = true ∧
      validateTransaction rawNoCategory = false := by
  decide

/-- C8: structural validation checks exactly the four documented
fields plus the category field as a string; it consults no business
rule beyond runtime types. -/
theorem validateTransaction_eq_spec_and_category (tx : RawTx) :
    validateTransaction tx =
      (validateTransactionSpec tx && typeofIsString tx.category) := rfl

/-- C10: the persisted failed-transaction row nulls exactly the falsy
field values: an empty txid or address and a zero amount or
confirmations count are stored as null, every other value is kept, and
the execution id and reason are passed through. -/
theorem formatFailedTransaction_nulls (tx : Tx) (eid reason : String) :
    ((formatFailedTransaction tx eid reason).txid = none ↔ tx.txid = "") ∧
    ((formatFailedTransaction tx eid reason).address = none ↔
      tx.address = "") ∧
    ((formatFailedTransaction tx eid reason).amount = none ↔
      tx.amount = 0) ∧
    ((formatFailedTransaction tx eid reason).confirmations = none ↔
      tx.confirmations = 0) ∧
    (tx.txid ≠ "" →
      (formatFailedTransaction tx eid reason).txid = some tx.txid) ∧
    (tx.amount ≠ 0 →
      (formatFailedTransaction tx eid reason).amount = some tx.amount) ∧
    (formatFailedTransaction tx eid reason).executionId = eid ∧
    (formatFailedTransaction tx eid reason).reason = reason := by
  refine ⟨?_, ?_, ?_, ?_, ?_, ?_, rfl, rfl⟩ <;>
    simp only [formatFailedTransaction, strOrNull, numOrNull] <;>
    split <;> simp_all

/-- Witness for formatFailedTransaction_nulls: a failed record whose
amount is zero and txid empty is stored with null in both columns. -/
theorem formatFailedTransaction_nulls_witness :
    (formatFailedTransaction ⟨"", "a", 0, 3, "send"⟩ "run-1" "r").txid
        = none ∧
      (formatFailedTransaction ⟨"", "a", 0, 3, "send"⟩ "run-1" "r").amount
        = none :=
  ⟨(formatFailedTransaction_nulls ⟨"", "a", 0, 3, "send"⟩ "run-1" "r").1.mpr
      (by decide),
    (formatFailedTransaction_nulls ⟨"", "a", 0, 3, "send"⟩ "run-1"
        "r").2.2.1.mpr (by decide)⟩

/-- C1: inserting the same deposit twice through the plaintext bulk
writer leaves one row, but through the encrypting bulk writer it leaves
two rows whose stored txid columns are distinct fresh ciphertexts of
the same txid, because a fresh IV is drawn on every call and the
conflict target never matches. -/
theorem c1_encrypting_writer_not_idempotent :
    depositsAfterPlainTwice.length = 1 ∧
    depositsAfterEncTwice.length = 2 ∧
    depositsAfterEncTwice.map (fun r => decrypt r.txid) = ["t1", "t1"] ∧
    depositsAfterEncTwice.map DepositRow.txid = ["0:t1", "2:t1"] := by
  decide

/-- Helper for the retry ceiling: the x-retry-count header of an
always-failing message saturates at 3. -/
theorem retryHeaderAtFailure_eq (n : Nat) :
    retryHeaderAtFailure n = min n 3 := by
  induction n with
  | zero => rfl
  | succ n ih =>
    rw [retryHeaderAtFailure, ih]
    simp only [handleProcessingError]
    split_ifs with h
    · simp only []
      omega
    · simp only []
      omega

/-- C4: on the n-th failure of a message (counting from zero) the
consumer republishes to the retry exchange with the counter incremented
while fewer than three retries have happened, republishes to the
dead-letter exchange from the fourth failure on — so after three failed
retries the message is dead-lettered and a further retry never occurs —
and acknowledges the original message on both branches. -/
theorem retryRouting_bounded (n : Nat) :
    retryHeaderAtFailure n = min n 3 ∧
    (n < 3 → routeAtFailure n = RetryRoute.retryPublish (n + 1)) ∧
    (3 ≤ n → routeAtFailure n = RetryRoute.deadLetter) ∧
    (handleProcessingError (retryHeaderAtFailure n)).2 = true := by
  refine ⟨retryHeaderAtFailure_eq n, ?_, ?_, ?_⟩
  · intro hn
    have hm : min n 3 = n := by omega
    rw [routeAtFailure, retryHeaderAtFailure_eq, hm]
    simp [handleProcessingError, hn]
  · intro hn
    have hm : min n 3 = 3 := by omega
    rw [routeAtFailure, retryHeaderAtFailure_eq, hm]
    simp [handleProcessingError]
  · simp only [handleProcessingError]
    split_ifs <;> rfl

/-- Witness for retryRouting_bounded: the second failure goes back to
the retry exchange with counter 2; the fifth failure is dead-lettered. -/
theorem retryRouting_bounded_witness :
    routeAtFailure 1 = RetryRoute.retryPublish 2 ∧
      routeAtFailure 4 = RetryRoute.deadLetter :=
  ⟨(retryRouting_bounded 1).2.1 (by decide),
    (retryRouting_bounded 4).2.2.1 (by decide)⟩

/-- Helper: growing the seen-set preserves membership through one
classification step. -/
theorem mem_classifyStep_seen (tx : Tx) (seen : List String) (x : String)
    (h : x ∈ seen) : x ∈ (classifyStep tx seen).2 := by
  unfold classifyStep
  split
  · exact h
  · cases hg : getFailureReason tx with
    | none => simp [h]
    | some r => simpa using h

/-- Helper: a record that classifies as a valid deposit puts its txid
into the seen-set. -/
theorem classifyStep_valid_mem (tx : Tx) (seen : List String)
    (h : (classifyStep tx seen).1 = Outcome.valid) :
    tx.txid ∈ (classifyStep tx seen).2 := by
  by_cases hc : tx.txid ∈ seen
  · simp [classifyStep, hc] at h
  · cases hg : getFailureReason tx with
    | none => simp [classifyStep, hc, hg]
    | some r => simp [classifyStep, hc, hg] at h

/-- Helper: a record whose txid is already in the seen-set classifies
as the duplicate failure, wherever it sits in the batch. -/
theorem classifyOutcomes_dup_of_mem (txs : List Tx) :
    ∀ (seen : List String) (j : Nat) (tj : Tx), txs.get? j = some tj →
      tj.txid ∈ seen →
      (classifyOutcomes txs seen).get? j =
        some (Outcome.failed "Transacción duplicada") := by
  induction txs with
  | nil =>
    intro seen j tj hj _
    simp at hj
  | cons t rest ih =>
    intro seen j tj hj hmem
    cases j with
    | zero =>
      have ht : t = tj := by simpa using hj
      subst ht
      simp [classifyOutcomes, classifyStep, hmem]
    | succ j' =>
      have hj' : rest.get? j' = some tj := by simpa using hj
      simpa [classifyOutcomes] using
        ih (classifyStep t seen).2 j' tj hj'
          (mem_classifyStep_seen t seen tj.txid hmem)

/-- Helper: once some record classifies valid, any later record with
the same txid classifies as the duplicate failure. -/
theorem classify_dup_after_valid (txs : List Tx) :
    ∀ (seen : List String) (i j : Nat) (ti tj : Tx), i < j →
      txs.get? i = some ti → txs.get? j = some tj → tj.txid = ti.txid →
      (classifyOutcomes txs seen).get? i = some Outcome.valid →
      (classifyOutcomes txs seen).get? j =
        some (Outcome.failed "Transacción duplicada") := by
  induction txs with
  | nil =>
    intro seen i j ti tj _ hi _ _ _
    simp at hi
  | cons t rest ih =>
    intro seen i j ti tj hij hi hj heq hvalid
    cases i with
    | zero =>
      have hti : t = ti := by simpa using hi
      cases j with
      | zero => omega
      | succ j' =>
        have hstep : (classifyStep t seen).1 = Outcome.valid := by
          simpa [classifyOutcomes] using hvalid
        have hmem : t.txid ∈ (classifyStep t seen).2 :=
          classifyStep_valid_mem t seen hstep
        have hj' : rest.get? j' = some tj := by simpa using hj
        have hmem2 : tj.txid ∈ (classifyStep t seen).2 := by
          rw [heq, ← hti]
          exact hmem
        simpa [classifyOutcomes] using
          classifyOutcomes_dup_of_mem rest (classifyStep t seen).2 j' tj
            hj' hmem2
    | succ i' =>
      cases j with
      | zero => omega
      | succ j' =>
        have hi' : rest.get? i' = some ti := by simpa using hi
        have hj' : rest.get? j' = some tj := by simpa using hj
        have hv' : (classifyOutcomes rest (classifyStep t seen).2).get? i' =
            some Outcome.valid := by
          simpa [classifyOutcomes] using hvalid
        simpa [classifyOutcomes] using
          ih (classifyStep t seen).2 i' j' ti tj (by omega) hi' hj' heq hv'

/-- C2: within a run, whenever the record at position i classifies as a
valid deposit and a later record at position j carries the same txid,
that later record classifies as the duplicate failure and in particular
not as valid — classification never yields valid twice for one txid. -/
theorem classify_no_double_valid (txs : List Tx) (seen : List String)
    (i j : Nat) (ti tj : Tx) (hij : i < j) (hi : txs.get? i = some ti)
    (hj : txs.get? j = some tj) (heq : tj.txid = ti.txid)
    (hvalid : (classifyOutcomes txs seen).get? i = some Outcome.valid) :
    (classifyOutcomes txs seen).get? j =
        some (Outcome.failed "Transacción duplicada") ∧
      (classifyOutcomes txs seen).get? j ≠ some Outcome.valid := by
  have h := classify_dup_after_valid txs seen i j ti tj hij hi hj heq hvalid
  refine ⟨h, ?_⟩
  rw [h]
  intro hcontra
  exact Outcome.noConfusion (Option.some.inj hcontra)

/-- Witness for classify_no_double_valid: two business-valid records
with one txid classify as (valid, duplicate) in arrival order. -/
theorem classify_no_double_valid_witness :
    (classifyOutcomes [txReceive, txReceiveAgain] []).get? 1 =
        some (Outcome.failed "Transacción duplicada") ∧
      (classifyOutcomes [txReceive, txReceiveAgain] []).get? 1 ≠
        some Outcome.valid :=
  classify_no_double_valid [txReceive, txReceiveAgain] [] 0 1 txReceive
    txReceiveAgain (by decide) (by decide) (by decide) (by decide) (by decide)

/-- Helper: whenever the wait loop returns, it returns a drained result
only at a poll that saw every queue empty, and a timed-out result only
at a poll that saw a message after the elapsed time passed the bound. -/
theorem waitGo_sound (d : Nat → List Nat) (i m : Nat) :
    ∀ (fuel k : Nat) (r : WaitResult), waitGo d i m fuel k = some r →
      (∃ p, r = WaitResult.drained p ∧ allQueuesEmpty (d p) = true) ∨
      (∃ p, r = WaitResult.timedOut p ∧ allQueuesEmpty (d p) = false ∧
        m < p * i) := by
  intro fuel
  induction fuel with
  | zero =>
    intro k r hr
    simp only [waitGo] at hr
    split_ifs at hr with h1 h2
    · exact Or.inl ⟨k, (Option.some.inj hr).symm, h1⟩
    · exact Or.inr ⟨k, (Option.some.inj hr).symm, by simpa using h1, h2⟩
  | succ fuel ihf =>
    intro k r hr
    simp only [waitGo] at hr
    split_ifs at hr with h1 h2
    · exact Or.inl ⟨k, (Option.some.inj hr).symm, h1⟩
    · exact Or.inr ⟨k, (Option.some.inj hr).symm, by simpa using h1, h2⟩
    · exact ihf (k + 1) r hr

/-- Helper: with a positive polling interval the wait loop always
returns, given fuel reaching the time bound. -/
theorem waitGo_total (d : Nat → List Nat) (i m : Nat) (hi : 0 < i) :
    ∀ (fuel k : Nat), m / i + 1 ≤ fuel + k →
      (waitGo d i m fuel k).isSome = true := by
  intro fuel
  induction fuel with
  | zero =>
    intro k hk
    simp only [waitGo]
    split_ifs with h1 h2
    · simp
    · simp
    · exfalso
      have hdm := Nat.div_add_mod m i
      have hmod := Nat.mod_lt m hi
      have hk' : m / i + 1 ≤ k := by omega
      have h3 : (m / i + 1) * i ≤ k * i := Nat.mul_le_mul_right i hk'
      have h4 : m < (m / i + 1) * i := by
        have hexp : (m / i + 1) * i = i * (m / i) + i := by ring
        omega
      omega
  | succ fuel ihf =>
    intro k hk
    simp only [waitGo]
    split_ifs with h1 h2
    · simp
    · simp
    · exact ihf (k + 1) (by omega)

/-- C5: after the control sentinel the consumer blocks on
waitForQueuesEmpty over the main and retry queues (one-second polls,
ten-second bound) before resolving its completion promise; the wait
always returns, and it returns either at a poll where both queues
reported zero pending messages, or as a timed-out warning at a poll
past the bound where a queue still held messages — never early while a
queue holds messages within the bound. -/
theorem consumerDrain_no_early_resolve (mainDepth retryDepth : Nat → Nat) :
    ∃ r, consumerControlDrain mainDepth retryDepth = some r ∧
      ((∃ p, r = WaitResult.drained p ∧ mainDepth p = 0 ∧ retryDepth p = 0) ∨
       (∃ p, r = WaitResult.timedOut p ∧
          ¬(mainDepth p = 0 ∧ retryDepth p = 0) ∧ 10000 < p * 1000)) := by
  have ht := waitGo_total (fun k => [mainDepth k, retryDepth k]) 1000 10000
    (by decide) (10000 / 1000 + 1) 0 (by omega)
  obtain ⟨r, hr⟩ := Option.isSome_iff_exists.mp ht
  refine ⟨r, hr, ?_⟩
  rcases waitGo_sound (fun k => [mainDepth k, retryDepth k]) 1000 10000 _ 0 r hr
    with ⟨p, hp, he⟩ | ⟨p, hp, he, hb⟩
  · refine Or.inl ⟨p, hp, ?_⟩
    simpa [allQueuesEmpty] using he
  · refine Or.inr ⟨p, hp, ?_, hb⟩
    simpa [allQueuesEmpty] using he

/-- C7 counterexample: the transactionHelpers persistTransactions — the
variant the broker consumer uses — runs its two bulk inserts with no
surrounding transaction, so when the failed-transactions insert raises,
the valid deposits stay committed while no failed row is stored. -/
theorem persistHelpers_partial_commit :
    (persistTransactionsHelpers dbEmpty [depRow] [failRow] false
        true).committed.deposits = [depRow] ∧
      (persistTransactionsHelpers dbEmpty [depRow] [failRow] false
        true).committed.failedTxs = [] := by
  decide

/-- C7: the transactionProcessor persistTransactions is atomic: called
on a connection with no open transaction, a raise in either bulk insert
rolls back to the untouched state — neither list of rows remains —
while the success path commits both inserts together. -/
theorem persistProcessor_atomic (db : DBConn) (vd : List DepositRow)
    (fd : List FailedRow) (vRaises fRaises : Bool)
    (h : db.txnBuf = none) :
    ((vRaises || fRaises) = true →
      persistTransactionsProcessor db vd fd vRaises fRaises = db) ∧
    ((vRaises || fRaises) = false →
      persistTransactionsProcessor db vd fd vRaises fRaises =
        ⟨applyFailedInsert fd (applyValidInsert vd db.committed), none⟩) := by
  obtain ⟨c, tb⟩ := db
  simp only at h
  subst h
  constructor <;> intro hb <;> cases vRaises <;> cases fRaises <;>
    simp_all [persistTransactionsProcessor, dbBegin, dbRollback, dbApply,
      dbCommit]

/-- Witness for persistProcessor_atomic: with the failed insert raising
nothing is stored; with no raise both rows are stored. -/
theorem persistProcessor_atomic_witness :
    persistTransactionsProcessor dbEmpty [depRow] [failRow] false true =
        dbEmpty ∧
      persistTransactionsProcessor dbEmpty [depRow] [failRow] false false =
        ⟨applyFailedInsert [failRow] (applyValidInsert [depRow]
          dbEmpty.committed), none⟩ :=
  ⟨(persistProcessor_atomic dbEmpty [depRow] [failRow] false true rfl).1
      (by decide),
    (persistProcessor_atomic dbEmpty [depRow] [failRow] false false rfl).2
      (by decide)⟩

/-- C9 counterexample: with the first source file of bad shape and the
second file fine, the broker publisher catches the file error at the
level of the whole loop: it publishes nothing — the second file is
never read and the control sentinel is never published. -/
theorem publisher_file_error_ends_run :
    processTransactionsPublisher fsysBadThenGood
        ["transactions-1.json", "transactions-2.json"] "run-1" =
      Except.ok [] ∧
    WireMessage.controlMsg "run-1" ∉ ([] : List WireMessage) := by
  constructor
  · rfl
  · simp

/-- C9: in the sequential pipeline variant a file of bad top-level
shape is fatal only for that file: processFile logs the
FileProcessingError and the run continues exactly as if the file were
absent from the list — while a missing-file or malformed-JSON error is
re-raised and aborts the rest of the run from that file on. -/
theorem pipeline_bad_shape_file_scoped (fsys : String → ReadOutcome)
    (eid badFile ioFile : String)
    (hbad : fsys badFile = ReadOutcome.okRead FileShape.badShape)
    (hio : fsys ioFile = ReadOutcome.ioFault) :
    (∀ (pre post : List String) (st : PipelineState),
      processFilesPipeline fsys eid (pre ++ badFile :: post) st =
        processFilesPipeline fsys eid (pre ++ post) st) ∧
    (∀ (rest : List String) (st : PipelineState),
      processFilesPipeline fsys eid (ioFile :: rest) st =
        Except.error ()) := by
  constructor
  · intro pre
    induction pre with
    | nil =>
      intro post st
      simp only [List.nil_append, processFilesPipeline, processFilePipeline,
        readAndValidateFile, hbad]
    | cons f pre' ih =>
      intro post st
      simp only [List.cons_append, processFilesPipeline]
      cases hres : processFilePipeline fsys eid f st with
      | error e => rfl
      | ok st2 => exact ih post st2
  · intro rest st
    simp only [processFilesPipeline, processFilePipeline,
      readAndValidateFile, hio]

/-- Witness for pipeline_bad_shape_file_scoped: the concrete run over a
bad-shape first file equals the run over the second file alone, and a
run starting at a missing file raises. -/
theorem pipeline_bad_shape_file_scoped_witness :
    processFilesPipeline fsysBadThenGood "run-1"
        ["transactions-1.json", "transactions-2.json"] pipelineStart =
      processFilesPipeline fsysBadThenGood "run-1" ["transactions-2.json"]
        pipelineStart ∧
    processFilesPipeline fsysBadThenGood "run-1" ["missing.json"]
        pipelineStart = Except.error () :=
  ⟨(pipeline_bad_shape_file_scoped fsysBadThenGood "run-1"
      "transactions-1.json" "missing.json" (by decide) (by decide)).1 []
      ["transactions-2.json"] pipelineStart,
    (pipeline_bad_shape_file_scoped fsysBadThenGood "run-1"
      "transactions-1.json" "missing.json" (by decide) (by decide)).2
      [] pipelineStart⟩

/-- Helper: acknowledgements seen in a prefix of a trace are
acknowledgements of the whole trace. -/
theorem ackedIn_take_subset (tr : List ConsumerEvent) (n x : Nat)
    (hx : x ∈ ackedIn (tr.take n)) : x ∈ ackedIn tr := by
  rw [ackedIn, List.mem_filterMap] at hx ⊢
  obtain ⟨e, he, hfe⟩ := hx
  exact ⟨e, List.take_subset n tr he, hfe⟩

/-- Helper: the acknowledgement indices of a pure acknowledgement run. -/
theorem ackedIn_map_ackedMsg (l : List Nat) :
    ackedIn (l.map ConsumerEvent.ackedMsg) = l := by
  induction l with
  | nil => rfl
  | cons a l ih =>
    simp only [List.map_cons, ackedIn, List.filterMap_cons] at ih ⊢
    rw [ih]

/-- Helper: a flush acknowledges exactly the buffered messages. -/
theorem ackedIn_flushBatchEvents (buf : List Nat) :
    ackedIn (flushBatchEvents buf) = buf := by
  unfold flushBatchEvents
  split
  · simp_all [List.isEmpty_iff, ackedIn]
  · rw [show ackedIn (ConsumerEvent.persistedBatch ::
        buf.map ConsumerEvent.ackedMsg) =
        ackedIn (buf.map ConsumerEvent.ackedMsg) from by
      simp [ackedIn, List.filterMap_cons]]
    exact ackedIn_map_ackedMsg buf

/-- Helper invariant for the deferred-acknowledgement consumer: within
any prefix of the remaining trace, an acknowledged message index was
either already classified in that prefix or was sitting in the buffer
the trace started from. -/
theorem consumerV2_ack_aux (idxs : List Nat) :
    ∀ (buf : List Nat) (n x : Nat),
      x ∈ ackedIn ((consumerV2Go idxs buf).take n) →
        x ∈ classifiedIn ((consumerV2Go idxs buf).take n) ∨ x ∈ buf := by
  induction idxs with
  | nil =>
    intro buf n x hx
    right
    have h := ackedIn_take_subset (flushBatchEvents buf) n x hx
    rwa [ackedIn_flushBatchEvents] at h
  | cons i rest ih =>
    intro buf n x hx
    cases n with
    | zero =>
      simp [ackedIn] at hx
    | succ n' =>
      by_cases hflush : 50 ≤ (buf ++ [i]).length
      · rw [consumerV2Go, if_pos hflush] at hx ⊢
        rw [List.take_succ_cons] at hx ⊢
        have hx' : x ∈ ackedIn ((flushBatchEvents (buf ++ [i]) ++
            consumerV2Go rest []).take n') := by
          simpa [ackedIn, List.filterMap_cons] using hx
        rw [List.take_append_eq_append_take] at hx' ⊢
        rw [ackedIn, List.filterMap_append, List.mem_append] at hx'
        rcases hx' with h1 | h2
        · have hxbuf : x ∈ buf ++ [i] := by
            have h := ackedIn_take_subset (flushBatchEvents (buf ++ [i])) n'
              x h1
            rwa [ackedIn_flushBatchEvents] at h
          rcases List.mem_append.mp hxbuf with hxb | hxi
          · exact Or.inr hxb
          · left
            have hxi' : x = i := by simpa using hxi
            subst hxi'
            simp [classifiedIn]
        · rcases ih [] (n' - (flushBatchEvents (buf ++ [i])).length) x h2
            with hcl | hnil
          · left
            rw [classifiedIn, List.mem_filterMap]
            rw [classifiedIn, List.mem_filterMap] at hcl
            obtain ⟨e, he, hfe⟩ := hcl
            exact ⟨e, List.mem_cons_of_mem _ (List.mem_append_right _ he), hfe⟩
          · exact absurd hnil (List.not_mem_nil x)
      · rw [consumerV2Go, if_neg hflush] at hx ⊢
        rw [List.take_succ_cons] at hx ⊢
        have hx' : x ∈ ackedIn ((consumerV2Go rest (buf ++ [i])).take n') := by
          simpa [ackedIn, List.filterMap_cons] using hx
        rcases ih (buf ++ [i]) n' x hx' with hcl | hbuf
        · left
          rw [classifiedIn, List.mem_filterMap]
          rw [classifiedIn, List.mem_filterMap] at hcl
          obtain ⟨e, he, hfe⟩ := hcl
          exact ⟨e, List.mem_cons_of_mem _ he, hfe⟩
        · rcases List.mem_append.mp hbuf with hxb | hxi
          · exact Or.inr hxb
          · left
            have hxi' : x = i := by simpa using hxi
            subst hxi'
            simp [classifiedIn]

/-- C6: in the deferred-acknowledgement consumer variant, every prefix
of the event trace that contains the acknowledgement of a work message
already contains its classification: no work message is acknowledged
before its record went through classification. -/
theorem consumerV2_ack_only_after_classify (idxs : List Nat) (n x : Nat)
    (hx : x ∈ ackedIn ((consumerV2Go idxs []).take n)) :
    x ∈ classifiedIn ((consumerV2Go idxs []).take n) := by
  rcases consumerV2_ack_aux idxs [] n x hx with h | h
  · exact h
  · exact absurd h (List.not_mem_nil x)

/-- Witness for consumerV2_ack_only_after_classify on a one-message
trace: the acknowledgement arrives in the final flush, after the
classification event. -/
theorem consumerV2_ack_only_after_classify_witness :
    0 ∈ classifiedIn ((consumerV2Go [0] []).take 3) :=
  consumerV2_ack_only_after_classify [0] 3 0 (by decide)

/-- C6 counterexample: the per-message-acknowledgement consumer variant
acknowledges a buffered work message at once — the one-event prefix of
its trace on a single message contains the acknowledgement but not yet
any classification of that record. -/
theorem consumerV1_ack_before_classify :
    0 ∈ ackedIn ((consumerV1Go [0] []).take 1) ∧
      0 ∉ classifiedIn ((consumerV1Go [0] []).take 1) := by
  decide

end CryptoPayments
